import Mathlib

/-!
Verification development for the command-channel synchronization layer of the
meta-hybrid_mount web UI (source: `webui/src/lib/types.ts`, which bundles the
type declarations, the `RealAPI` object and the `MockAPI` object).

The layer mediates every operation through an optionally-absent execution
capability (`ksuExec`): a function from a command string to an exit code plus
two text streams.  We embed that capability as a pure oracle
`Option (String → KsuExecResult)`.  Platform primitives that are not code of
this repository (`JSON.parse`, `JSON.stringify`) are taken as oracle
parameters of the operations that use them; `TextEncoder.encode` is embedded
as the standard UTF-8 encoding, which is its specification.

All text processing is carried out on `List Char` with executable structural
recursion so that every definition evaluates inside the kernel.
-/

/-- Result record of the execution capability: exit code plus the two
text streams (`KsuExecResult` in the source). -/
structure KsuExecResult where
  errno : Int
  stdout : String
  stderr : String
deriving DecidableEq

/-- A pure oracle for the execution capability: maps a command line to the
result of running it. -/
abbrev ExecFn := String → KsuExecResult

/-! ## Payload codec (`stringToHex`) -/

/-- UTF-8 encoding of a single Unicode scalar value, the behaviour of
`TextEncoder.encode` on one character (the branch of `stringToHex` taken
whenever `TextEncoder` exists). -/
def utf8EncodeChar (c : Char) : List Nat :=
  let v := c.toNat
  if v < 0x80 then [v]
  else if v < 0x800 then [0xC0 + v / 0x40, 0x80 + v % 0x40]
  else if v < 0x10000 then
    [0xE0 + v / 0x1000, 0x80 + (v / 0x40) % 0x40, 0x80 + v % 0x40]
  else
    [0xF0 + v / 0x40000, 0x80 + (v / 0x1000) % 0x40, 0x80 + (v / 0x40) % 0x40,
      0x80 + v % 0x40]

/-- The UTF-8 byte sequence of a string (`new TextEncoder().encode(str)`). -/
def utf8Bytes (s : String) : List Nat :=
  (s.data.map utf8EncodeChar).flatten

/-- Lowercase hexadecimal digit for a value below 16, as produced by
JavaScript `Number.prototype.toString(16)`. -/
def hexDigit (n : Nat) : Char :=
  "0123456789abcdef".data.getD n '0'

/-- The two-character rendering of one byte in `stringToHex`:
`b.toString(16)` padded on the left with `"0"` when it has one digit. -/
def hexByte (b : Nat) : List Char :=
  let h := if b < 16 then [hexDigit b] else [hexDigit (b / 16), hexDigit (b % 16)]
  if h.length = 1 then '0' :: h else h

/-- `stringToHex` from the source: UTF-8 encode the string and render each
byte as a fixed-width two-character lowercase hexadecimal pair. -/
def stringToHex (s : String) : String :=
  ⟨((utf8Bytes s).map hexByte).flatten⟩

/-! ## Supporting lemmas for the codec -/

theorem char_toNat_lt (c : Char) : c.toNat < 0x110000 := by
  have h := c.valid
  simp [UInt32.isValidChar, Nat.isValidChar] at h
  show c.val.toNat < 0x110000
  rcases h with h | h <;> omega

theorem utf8EncodeChar_bytes_lt (c : Char) :
    ∀ b ∈ utf8EncodeChar c, b < 256 := by
  have hv := char_toNat_lt c
  simp only [utf8EncodeChar]
  split_ifs <;>
    (intro b hb
     simp only [List.mem_cons, List.not_mem_nil, or_false] at hb
     first
       | (casesm* _ ∨ _ <;> omega)
       | omega)

theorem utf8EncodeChar_ne_nil (c : Char) : utf8EncodeChar c ≠ [] := by
  simp only [utf8EncodeChar]
  split_ifs <;> simp

theorem utf8Bytes_lt (s : String) : ∀ b ∈ utf8Bytes s, b < 256 := by
  intro b hb
  unfold utf8Bytes at hb
  simp [List.mem_flatten] at hb
  obtain ⟨c, _, hc⟩ := hb
  exact utf8EncodeChar_bytes_lt c b hc

/-- The UTF-8 encoding of one character determines the character and the
remainder of the stream: the code is prefix-free. -/
theorem utf8EncodeChar_prefix_free (c₁ c₂ : Char) (r₁ r₂ : List Nat)
    (h : utf8EncodeChar c₁ ++ r₁ = utf8EncodeChar c₂ ++ r₂) :
    c₁ = c₂ ∧ r₁ = r₂ := by
  have hv₁ := char_toNat_lt c₁
  have hv₂ := char_toNat_lt c₂
  have hchar : c₁.toNat = c₂.toNat → c₁ = c₂ := fun hn => Char.ext (UInt32.ext hn)
  simp only [utf8EncodeChar] at h
  split_ifs at h <;>
    simp only [List.cons_append, List.nil_append, List.cons.injEq] at h <;>
    first
      | exact ⟨hchar (by omega), h.2⟩
      | exact ⟨hchar (by omega), h.2.2⟩
      | exact ⟨hchar (by omega), h.2.2.2⟩
      | exact ⟨hchar (by omega), h.2.2.2.2⟩
      | (exfalso; omega)

/-- UTF-8 encoding of a character list (body of `utf8Bytes`). -/
def utf8EncodeList (l : List Char) : List Nat :=
  (l.map utf8EncodeChar).flatten

theorem utf8Bytes_eq (s : String) : utf8Bytes s = utf8EncodeList s.data := rfl

theorem utf8EncodeList_inj (l₁ : List Char) :
    ∀ l₂, utf8EncodeList l₁ = utf8EncodeList l₂ → l₁ = l₂ := by
  induction l₁ with
  | nil =>
    intro l₂ h
    cases l₂ with
    | nil => rfl
    | cons c t =>
      exfalso
      simp only [utf8EncodeList, List.map_nil, List.flatten_nil, List.map_cons,
        List.flatten_cons] at h
      rcases List.append_eq_nil.mp h.symm with ⟨h1, _⟩
      exact utf8EncodeChar_ne_nil c h1
  | cons c t ih =>
    intro l₂ h
    cases l₂ with
    | nil =>
      exfalso
      simp only [utf8EncodeList, List.map_nil, List.flatten_nil, List.map_cons,
        List.flatten_cons] at h
      rcases List.append_eq_nil.mp h with ⟨h1, _⟩
      exact utf8EncodeChar_ne_nil c h1
    | cons c₂ t₂ =>
      simp only [utf8EncodeList, List.map_cons, List.flatten_cons] at h
      obtain ⟨hc, hr⟩ := utf8EncodeChar_prefix_free c c₂ _ _ h
      subst hc
      rw [ih t₂ hr]

theorem hexByte_eq (b : Nat) :
    hexByte b = [hexDigit (b / 16), hexDigit (b % 16)] := by
  by_cases h : b < 16
  · have h1 : b / 16 = 0 := by omega
    have h2 : b % 16 = b := by omega
    have h0 : hexDigit 0 = '0' := rfl
    simp [hexByte, h, h1, h2, h0]
  · simp [hexByte, h]

theorem hexDigit_inj16 : ∀ m n : Fin 16, hexDigit m.val = hexDigit n.val → m = n := by
  decide

theorem hexDigit_mem16 : ∀ n : Fin 16, hexDigit n.val ∈ "0123456789abcdef".data := by
  decide

theorem hexPairs_inj (l₁ : List Nat) :
    ∀ l₂ : List Nat, (∀ b ∈ l₁, b < 256) → (∀ b ∈ l₂, b < 256) →
    (l₁.map hexByte).flatten = (l₂.map hexByte).flatten → l₁ = l₂ := by
  induction l₁ with
  | nil =>
    intro l₂ _ _ h
    cases l₂ with
    | nil => rfl
    | cons b t => simp [hexByte_eq] at h
  | cons b t ih =>
    intro l₂ hb₁ hb₂ h
    cases l₂ with
    | nil => simp [hexByte_eq] at h
    | cons b₂ t₂ =>
      simp only [List.map_cons, List.flatten_cons, hexByte_eq, List.cons_append,
        List.nil_append, List.cons.injEq] at h
      obtain ⟨h1, h2, h3⟩ := h
      have hb : b < 256 := hb₁ b (by simp)
      have hb2 : b₂ < 256 := hb₂ b₂ (by simp)
      have e1 : b / 16 = b₂ / 16 := by
        have := hexDigit_inj16 ⟨b / 16, by omega⟩ ⟨b₂ / 16, by omega⟩ h1
        simpa [Fin.mk.injEq] using this
      have e2 : b % 16 = b₂ % 16 := by
        have := hexDigit_inj16 ⟨b % 16, by omega⟩ ⟨b₂ % 16, by omega⟩ h2
        simpa [Fin.mk.injEq] using this
      have hbb : b = b₂ := by omega
      subst hbb
      rw [ih t₂ (fun x hx => hb₁ x (by simp [hx])) (fun x hx => hb₂ x (by simp [hx])) h3]

theorem hexFlatten_length (l : List Nat) :
    ((l.map hexByte).flatten).length = 2 * l.length := by
  induction l with
  | nil => rfl
  | cons b t ih =>
    simp only [List.map_cons, List.flatten_cons, hexByte_eq, List.length_append,
      List.length_cons, List.length_nil, ih]
    omega

/-- Claim C3: the hex payload encoder `stringToHex` is total (it is a Lean
function) and injective on all UTF-8 strings; for every input string its
output length is exactly twice the byte length of the input's UTF-8 encoding,
and every character of the output is a lowercase hexadecimal digit,
regardless of input content. -/
theorem stringToHex_spec :
    (∀ s₁ s₂ : String, stringToHex s₁ = stringToHex s₂ → s₁ = s₂) ∧
    (∀ s : String, (stringToHex s).length = 2 * (utf8Bytes s).length) ∧
    (∀ s : String, ∀ c ∈ (stringToHex s).data, c ∈ "0123456789abcdef".data) := by
  refine ⟨?_, ?_, ?_⟩
  · intro s₁ s₂ h
    have hd : (stringToHex s₁).data = (stringToHex s₂).data := by rw [h]
    have hbytes : utf8Bytes s₁ = utf8Bytes s₂ :=
      hexPairs_inj _ _ (utf8Bytes_lt s₁) (utf8Bytes_lt s₂) hd
    rw [utf8Bytes_eq, utf8Bytes_eq] at hbytes
    have hdata : s₁.data = s₂.data := utf8EncodeList_inj _ _ hbytes
    cases s₁; cases s₂; exact congrArg String.mk hdata
  · intro s
    show (((utf8Bytes s).map hexByte).flatten).length = _
    exact hexFlatten_length _
  · intro s c hc
    change c ∈ ((utf8Bytes s).map hexByte).flatten at hc
    simp only [List.mem_flatten, List.mem_map] at hc
    obtain ⟨l, ⟨b, hb, rfl⟩, hcl⟩ := hc
    have hb256 : b < 256 := utf8Bytes_lt s b hb
    rw [hexByte_eq] at hcl
    simp only [List.mem_cons, List.not_mem_nil, or_false] at hcl
    rcases hcl with rfl | rfl
    · exact hexDigit_mem16 ⟨b / 16, by omega⟩
    · exact hexDigit_mem16 ⟨b % 16, by omega⟩

/-- Witness for `stringToHex_spec` at concrete inputs. -/
theorem stringToHex_spec_witness :
    ("ab" : String) = "ab" ∧ (stringToHex "ab").length = 2 * (utf8Bytes "ab").length :=
  ⟨stringToHex_spec.1 "ab" "ab" rfl, stringToHex_spec.2.1 "ab"⟩

/-! ## Configuration data model -/

/-- `OverlayMode` from the source. -/
inductive OverlayMode
  | tmpfs
  | ext4
  | erofs
deriving DecidableEq

/-- `MountMode` from the source. -/
inductive MountMode
  | overlay
  | magic
  | ignore
  | hymofs
deriving DecidableEq

/-- `AppConfig` from the source; the fields marked optional in the interface
(`logfile?`, `hymofs_debug?`, `hymofs_stealth?`) are embedded as `Option`,
`none` standing for an absent key. -/
structure AppConfig where
  moduledir : String
  mountsource : String
  partitions : List String
  overlay_mode : OverlayMode
  disable_umount : Bool
  allow_umount_coexistence : Bool
  logfile : Option String
  hymofs_debug : Option Bool
  hymofs_stealth : Option Bool
deriving DecidableEq

/-- `ModuleRules` from the source: a default mount-mode label plus a map from
relative path to an override mode label, embedded as an association list. -/
structure ModuleRules where
  default_mode : MountMode
  paths : List (String × String)
deriving DecidableEq

/-- `Module` from the source (named `ModuleRec` here because `Module` is
taken by Mathlib); the optional fields `enabled?` and `source_path?` are
embedded as `Option`. -/
structure ModuleRec where
  id : String
  name : String
  version : String
  author : String
  description : String
  mode : String
  is_mounted : Bool
  enabled : Option Bool
  source_path : Option String
  rules : ModuleRules
deriving DecidableEq

/-- Modelled from the spec: the compiled-in default configuration record
(`DEFAULT_CONFIG` from the `./constants` module, which is not among the
sources).  Section 3 of the spec fixes its shape — module directory path,
mount source, partition list, overlay backing type, boolean flags, optional
log path, optional feature flags — and every claim compares results against
this record only by value, so the concrete field values are immaterial. -/
def DEFAULT_CONFIG : AppConfig where
  moduledir := "/data/adb/modules"
  mountsource := "KSU"
  partitions := ["system", "vendor", "product", "system_ext"]
  overlay_mode := OverlayMode.tmpfs
  disable_umount := false
  allow_umount_coexistence := false
  logfile := some "/data/adb/meta-hybrid/daemon.log"
  hymofs_debug := none
  hymofs_stealth := none

/-- Modelled from the spec: the remote binary path (`PATHS.BINARY` from the
`./constants` module, which is not among the sources).  Every command is the
concatenation of this path with a fixed sub-command, matching the command
table of spec section 6; no claim depends on the concrete path. -/
def PATHS_BINARY : String := "/data/adb/modules/meta-hybrid_mount/hybrid-mount"

/-- A partially-present configuration record, the shape of the value produced
by `JSON.parse` on the remote output: each key may be present or absent. -/
structure PartialConfig where
  moduledir : Option String := none
  mountsource : Option String := none
  partitions : Option (List String) := none
  overlay_mode : Option OverlayMode := none
  disable_umount : Option Bool := none
  allow_umount_coexistence : Option Bool := none
  logfile : Option String := none
  hymofs_debug : Option Bool := none
  hymofs_stealth : Option Bool := none
deriving DecidableEq

/-- The JavaScript object-spread merge of the parsed record over the
defaults, field by field: a key present in the remote record wins, an absent
key keeps the default. -/
def mergeConfig (d : AppConfig) (r : PartialConfig) : AppConfig where
  moduledir := r.moduledir.getD d.moduledir
  mountsource := r.mountsource.getD d.mountsource
  partitions := r.partitions.getD d.partitions
  overlay_mode := r.overlay_mode.getD d.overlay_mode
  disable_umount := r.disable_umount.getD d.disable_umount
  allow_umount_coexistence := r.allow_umount_coexistence.getD d.allow_umount_coexistence
  logfile := match r.logfile with | some v => some v | none => d.logfile
  hymofs_debug := match r.hymofs_debug with | some v => some v | none => d.hymofs_debug
  hymofs_stealth := match r.hymofs_stealth with | some v => some v | none => d.hymofs_stealth

/-- The keys of the configuration record, for key-wise statements about the
merge. -/
inductive ConfigKey
  | moduledir
  | mountsource
  | partitions
  | overlay_mode
  | disable_umount
  | allow_umount_coexistence
  | logfile
  | hymofs_debug
  | hymofs_stealth
deriving DecidableEq

/-- A configuration field value, tagged by type. -/
inductive ConfigVal
  | str (s : String)
  | strs (l : List String)
  | ov (m : OverlayMode)
  | flag (b : Bool)
deriving DecidableEq

/-- Key-wise lookup in a full configuration record; `none` only for an
optional key whose value is absent. -/
def configGet (c : AppConfig) : ConfigKey → Option ConfigVal
  | .moduledir => some (.str c.moduledir)
  | .mountsource => some (.str c.mountsource)
  | .partitions => some (.strs c.partitions)
  | .overlay_mode => some (.ov c.overlay_mode)
  | .disable_umount => some (.flag c.disable_umount)
  | .allow_umount_coexistence => some (.flag c.allow_umount_coexistence)
  | .logfile => c.logfile.map ConfigVal.str
  | .hymofs_debug => c.hymofs_debug.map ConfigVal.flag
  | .hymofs_stealth => c.hymofs_stealth.map ConfigVal.flag

/-- Key-wise lookup in a partial (parsed) record. -/
def partialGet (r : PartialConfig) : ConfigKey → Option ConfigVal
  | .moduledir => r.moduledir.map ConfigVal.str
  | .mountsource => r.mountsource.map ConfigVal.str
  | .partitions => r.partitions.map ConfigVal.strs
  | .overlay_mode => r.overlay_mode.map ConfigVal.ov
  | .disable_umount => r.disable_umount.map ConfigVal.flag
  | .allow_umount_coexistence => r.allow_umount_coexistence.map ConfigVal.flag
  | .logfile => r.logfile.map ConfigVal.str
  | .hymofs_debug => r.hymofs_debug.map ConfigVal.flag
  | .hymofs_stealth => r.hymofs_stealth.map ConfigVal.flag

/-- The keys the interface declares as required (every key except the three
optional ones). -/
def requiredKeys : List ConfigKey :=
  [.moduledir, .mountsource, .partitions, .overlay_mode, .disable_umount,
    .allow_umount_coexistence]

/-! ## Config service (`loadConfig`, `saveConfig`, `resetConfig`),
module-rule service (`saveModuleRules`) and the no-op `saveModules`.

Write operations return the operation's outcome together with the list of
command lines issued to the execution capability, so that frame statements
("no command issued") are expressible. -/

/-- The fixed "show configuration" command line. -/
def showConfigCmd : String := PATHS_BINARY ++ " show-config"

/-- The body of the `try` block of `loadConfig`: an uncaught `JSON.parse`
failure is an `Except.error`. -/
def loadConfigTry (run : ExecFn) (parse : String → Option PartialConfig) :
    Except String AppConfig :=
  let r := run showConfigCmd
  if r.errno = 0 ∧ r.stdout ≠ "" then
    match parse r.stdout with
    | some loaded => .ok (mergeConfig DEFAULT_CONFIG loaded)
    | none => .error "SyntaxError: JSON.parse"
  else .ok DEFAULT_CONFIG

/-- `RealAPI.loadConfig`: absent capability returns the defaults; the `catch`
absorbs a parse failure into the defaults.  `parse` is the `JSON.parse`
platform primitive (plus field extraction), taken as an oracle. -/
def loadConfig (exec : Option ExecFn) (parse : String → Option PartialConfig) :
    AppConfig :=
  match exec with
  | none => DEFAULT_CONFIG
  | some run =>
    match loadConfigTry run parse with
    | .ok c => c
    | .error _ => DEFAULT_CONFIG

/-- The "save configuration" command line for a given payload token. -/
def saveConfigCmd (payload : String) : String :=
  PATHS_BINARY ++ " save-config --payload " ++ payload

/-- `RealAPI.saveConfig`; `stringify` is the `JSON.stringify` platform
primitive, taken as an oracle. -/
def saveConfig (exec : Option ExecFn) (stringify : AppConfig → String)
    (config : AppConfig) : Except String Unit × List String :=
  match exec with
  | none => (.error "No KSU environment", [])
  | some run =>
    let cmd := saveConfigCmd (stringToHex (stringify config))
    let r := run cmd
    (if r.errno ≠ 0 then .error ("Failed to save config: " ++ r.stderr) else .ok (),
      [cmd])

/-- The fixed "regenerate configuration" command line. -/
def genConfigCmd : String := PATHS_BINARY ++ " gen-config"

/-- `RealAPI.resetConfig`. -/
def resetConfig (exec : Option ExecFn) : Except String Unit × List String :=
  match exec with
  | none => (.error "No KSU environment", [])
  | some run =>
    let r := run genConfigCmd
    (if r.errno ≠ 0 then .error ("Failed to reset config: " ++ r.stderr) else .ok (),
      [genConfigCmd])

/-- The "save rules for module" command line: the module id is interpolated
inside literal double quotes, the payload token follows unquoted. -/
def saveModuleRulesCmd (moduleId payload : String) : String :=
  PATHS_BINARY ++ " save-module-rules --module \"" ++ moduleId ++ "\" --payload "
    ++ payload

/-- `RealAPI.saveModuleRules`; `stringify` is the `JSON.stringify` platform
primitive, taken as an oracle. -/
def saveModuleRules (exec : Option ExecFn) (stringify : ModuleRules → String)
    (moduleId : String) (rules : ModuleRules) : Except String Unit × List String :=
  match exec with
  | none => (.error "No KSU environment", [])
  | some run =>
    let cmd := saveModuleRulesCmd moduleId (stringToHex (stringify rules))
    let r := run cmd
    (if r.errno ≠ 0 then .error ("Failed to save rules: " ++ r.stderr) else .ok (),
      [cmd])

/-- `RealAPI.saveModules`: the body is a bare `return` — it consults nothing
and issues nothing. -/
def saveModules (_exec : Option ExecFn) (_modules : List ModuleRec) :
    Except String Unit × List String :=
  (.ok (), [])

/-- Substring containment, the sense in which an error message carries the
remote diagnostic text. -/
def strContainsProp (s sub : String) : Prop := ∃ pre post, s = pre ++ sub ++ post

/-- Claim C1: every write operation — `saveConfig`, `resetConfig`, and
`saveModuleRules` with any module id and rule set — raises an error when the
execution capability is absent, and raises an error whose message contains
the remote stderr text when the remote call exits non-zero; in particular a
rule save whose remote call exits with code 1 and stderr "disk full" raises
an error whose message contains "disk full". -/
theorem write_ops_error_spec :
    (∀ stringify c, (saveConfig none stringify c).1 = .error "No KSU environment") ∧
    ((resetConfig none).1 = .error "No KSU environment") ∧
    (∀ stringify mid rules,
      (saveModuleRules none stringify mid rules).1 = .error "No KSU environment") ∧
    (∀ (run : ExecFn) stringify c,
      (run (saveConfigCmd (stringToHex (stringify c)))).errno ≠ 0 →
      ∃ msg, (saveConfig (some run) stringify c).1 = .error msg ∧
        strContainsProp msg (run (saveConfigCmd (stringToHex (stringify c)))).stderr) ∧
    (∀ (run : ExecFn), (run genConfigCmd).errno ≠ 0 →
      ∃ msg, (resetConfig (some run)).1 = .error msg ∧
        strContainsProp msg (run genConfigCmd).stderr) ∧
    (∀ (run : ExecFn) stringify mid rules,
      (run (saveModuleRulesCmd mid (stringToHex (stringify rules)))).errno ≠ 0 →
      ∃ msg, (saveModuleRules (some run) stringify mid rules).1 = .error msg ∧
        strContainsProp msg
          (run (saveModuleRulesCmd mid (stringToHex (stringify rules)))).stderr) ∧
    (∀ (run : ExecFn) stringify mid rules,
      (run (saveModuleRulesCmd mid (stringToHex (stringify rules)))).errno = 1 →
      (run (saveModuleRulesCmd mid (stringToHex (stringify rules)))).stderr
        = "disk full" →
      ∃ msg, (saveModuleRules (some run) stringify mid rules).1 = .error msg ∧
        strContainsProp msg "disk full") := by
  refine ⟨fun _ _ => rfl, rfl, fun _ _ _ => rfl, ?_, ?_, ?_, ?_⟩
  · intro run stringify c h
    refine ⟨"Failed to save config: "
      ++ (run (saveConfigCmd (stringToHex (stringify c)))).stderr, ?_,
      "Failed to save config: ", "", ?_⟩
    · simp [saveConfig, h]
    · rw [String.append_empty]
  · intro run h
    refine ⟨"Failed to reset config: " ++ (run genConfigCmd).stderr, ?_,
      "Failed to reset config: ", "", ?_⟩
    · simp [resetConfig, h]
    · rw [String.append_empty]
  · intro run stringify mid rules h
    refine ⟨"Failed to save rules: "
      ++ (run (saveModuleRulesCmd mid (stringToHex (stringify rules)))).stderr, ?_,
      "Failed to save rules: ", "", ?_⟩
    · simp [saveModuleRules, h]
    · rw [String.append_empty]
  · intro run stringify mid rules h hs
    refine ⟨"Failed to save rules: "
      ++ (run (saveModuleRulesCmd mid (stringToHex (stringify rules)))).stderr, ?_,
      "Failed to save rules: ", "", ?_⟩
    · simp [saveModuleRules, h]
    · rw [hs, String.append_empty]

/-- Witness for `write_ops_error_spec`: a concrete rule save whose remote
call exits with code 1 and stderr "disk full". -/
theorem write_ops_error_spec_witness :
    ∃ msg, (saveModuleRules (some fun _ => ⟨1, "", "disk full"⟩) (fun _ => "p")
      "module_a" ⟨MountMode.magic, []⟩).1 = .error msg ∧
      strContainsProp msg "disk full" :=
  write_ops_error_spec.2.2.2.2.2.2 (fun _ => ⟨1, "", "disk full"⟩) (fun _ => "p")
    "module_a" ⟨MountMode.magic, []⟩ rfl rfl

/-- Claim C2: `loadConfig` never throws — it is a total function in which the
`catch` absorbs the parse failure — and in each of the three failure cases
(absent capability, non-zero exit, output that fails to parse) it returns a
record equal to the compiled-in default configuration, unchanged. -/
theorem loadConfig_fail_soft :
    (∀ parse, loadConfig none parse = DEFAULT_CONFIG) ∧
    (∀ (run : ExecFn) parse, (run showConfigCmd).errno ≠ 0 →
      loadConfig (some run) parse = DEFAULT_CONFIG) ∧
    (∀ (run : ExecFn) parse, parse (run showConfigCmd).stdout = none →
      loadConfig (some run) parse = DEFAULT_CONFIG) := by
  refine ⟨fun _ => rfl, ?_, ?_⟩
  · intro run parse h
    simp [loadConfig, loadConfigTry, h]
  · intro run parse h
    by_cases hc : (run showConfigCmd).errno = 0 ∧ (run showConfigCmd).stdout ≠ ""
    · simp [loadConfig, loadConfigTry, hc, h]
    · simp [loadConfig, loadConfigTry, hc]

/-- Witness for `loadConfig_fail_soft`: a run that exits non-zero, and a
parse oracle that always fails. -/
theorem loadConfig_fail_soft_witness :
    loadConfig (some fun _ => ⟨1, "", ""⟩) (fun _ => none) = DEFAULT_CONFIG :=
  loadConfig_fail_soft.2.1 (fun _ => ⟨1, "", ""⟩) (fun _ => none) (by decide)

/-- Claim C4: the configuration merge performed by `loadConfig` on successful
parse is shallow, key-wise and remote-wins — at every key the result is the
remote value when the key is present and the default otherwise — the merged
record has every required key populated, and `loadConfig` returns exactly
this merge on successful parse. -/
theorem mergeConfig_spec :
    (∀ (d : AppConfig) (r : PartialConfig) (k : ConfigKey),
      configGet (mergeConfig d r) k =
        match partialGet r k with
        | some v => some v
        | none => configGet d k) ∧
    (∀ (d : AppConfig) (r : PartialConfig) (k : ConfigKey), k ∈ requiredKeys →
      (configGet (mergeConfig d r) k).isSome = true) ∧
    (∀ (run : ExecFn) parse l, (run showConfigCmd).errno = 0 →
      (run showConfigCmd).stdout ≠ "" →
      parse (run showConfigCmd).stdout = some l →
      loadConfig (some run) parse = mergeConfig DEFAULT_CONFIG l) := by
  refine ⟨?_, ?_, ?_⟩
  · intro d r k
    obtain ⟨f1, f2, f3, f4, f5, f6, f7, f8, f9⟩ := r
    cases k <;>
      first
        | (cases f1 <;> rfl)
        | (cases f2 <;> rfl)
        | (cases f3 <;> rfl)
        | (cases f4 <;> rfl)
        | (cases f5 <;> rfl)
        | (cases f6 <;> rfl)
        | (cases f7 <;> rfl)
        | (cases f8 <;> rfl)
        | (cases f9 <;> rfl)
  · intro d r k hk
    simp only [requiredKeys, List.mem_cons, List.not_mem_nil, or_false] at hk
    rcases hk with rfl | rfl | rfl | rfl | rfl | rfl <;> rfl
  · intro run parse l h0 hs hp
    simp [loadConfig, loadConfigTry, h0, hs, hp]

/-- Witness for `mergeConfig_spec`: a populated required key of the merge of
an empty remote record, and a successful load returning that merge. -/
theorem mergeConfig_spec_witness :
    (configGet (mergeConfig DEFAULT_CONFIG {}) ConfigKey.moduledir).isSome = true ∧
    loadConfig (some fun _ => ⟨0, "x", ""⟩) (fun _ => some {})
      = mergeConfig DEFAULT_CONFIG {} :=
  ⟨mergeConfig_spec.2.1 DEFAULT_CONFIG {} ConfigKey.moduledir (by decide),
    mergeConfig_spec.2.2 (fun _ => ⟨0, "x", ""⟩) (fun _ => some {}) {} rfl
      (by decide) rfl⟩

/-- Claim C10: for every capability state and module list, `saveModules`
resolves successfully without issuing any command — the write is silently
discarded even when the capability is absent — unlike the other three write
operations, each of which fails when the capability is absent. -/
theorem saveModules_noop_spec :
    (∀ (exec : Option ExecFn) (modules : List ModuleRec),
      saveModules exec modules = (Except.ok (), ([] : List String))) ∧
    (∀ stringify c,
      (saveConfig none stringify c).1 = .error "No KSU environment") ∧
    ((resetConfig none).1 = .error "No KSU environment") ∧
    (∀ stringify mid rules,
      (saveModuleRules none stringify mid rules).1 = .error "No KSU environment") :=
  ⟨fun _ _ => rfl, fun _ _ => rfl, rfl, fun _ _ _ => rfl⟩

/-! ## Character-list text helpers (JS string primitives, embedded
executably) -/

/-- Split on newline, the behaviour of JS `String.prototype.split("\n")`. -/
def splitOnNlAux : List Char → List Char → List String
  | [], acc => [⟨acc.reverse⟩]
  | c :: rest, acc =>
    if c = '\n' then ⟨acc.reverse⟩ :: splitOnNlAux rest []
    else splitOnNlAux rest (c :: acc)

/-- The lines of a string (JS `s.split("\n")`). -/
def splitLinesStr (s : String) : List String := splitOnNlAux s.data []

/-- Whitespace trim on both ends (JS `String.prototype.trim`). -/
def trimChars (l : List Char) : List Char :=
  ((l.dropWhile Char.isWhitespace).reverse.dropWhile Char.isWhitespace).reverse

/-- JS `s.trim()`. -/
def trimStr (s : String) : String := ⟨trimChars s.data⟩

/-- List-prefix test (JS `String.prototype.startsWith`). -/
def isPrefixOfL : List Char → List Char → Bool
  | [], _ => true
  | _ :: _, [] => false
  | a :: as, b :: bs => a == b && isPrefixOfL as bs

/-- JS `s.substring(n)` for a character count `n`. -/
def dropStr (s : String) (n : Nat) : String := ⟨s.data.drop n⟩

/-! ## Status aggregator (`getSystemInfo`, `getDeviceStatus`) -/

/-- `SystemInfo` restricted to the fields `RealAPI.getSystemInfo` ever
populates (the interface's remaining optional fields — ABI, supported
overlay modes, nested special-filesystem state — are never written by the
real implementation and are omitted). -/
structure SystemInfo where
  kernel : String
  selinux : String
  mountBase : String
  activeMounts : List String
  zygisksuEnforce : Option String := none
  tmpfs_xattr_supported : Option Bool := none
deriving DecidableEq

/-- The sentinel record `getSystemInfo` starts from and falls back to. -/
def sentinelInfo : SystemInfo :=
  { kernel := "-", selinux := "-", mountBase := "-", activeMounts := [] }

/-- The shape of the parsed daemon state file: every field optional, absence
never failing the read. -/
structure DaemonState where
  mount_point : Option String := none
  active_mounts : Option (List String) := none
  zygisksu_enforce : Option Bool := none
  tmpfs_xattr_supported : Option Bool := none
deriving DecidableEq

/-- The tagged-line pass of `getSystemInfo`: each line starting with
`KERNEL:` or `SELINUX:` overwrites the respective field with the trimmed
remainder. -/
def parseTagged (out : String) (info : SystemInfo) : SystemInfo :=
  (splitLinesStr out).foldl (fun i line =>
    if isPrefixOfL "KERNEL:".data line.data then
      { i with kernel := trimStr (dropStr line 7) }
    else if isPrefixOfL "SELINUX:".data line.data then
      { i with selinux := trimStr (dropStr line 8) }
    else i) info

/-- The state-file pass of `getSystemInfo`: `mount_point` falls back to
"Unknown" when absent or empty (JS falsiness), `active_mounts` to the empty
list; the two feature flags are written only when present. -/
def applyState (st : DaemonState) (i : SystemInfo) : SystemInfo :=
  { i with
    mountBase := match st.mount_point with
      | some s => if s = "" then "Unknown" else s
      | none => "Unknown"
    activeMounts := st.active_mounts.getD []
    zygisksuEnforce := match st.zygisksu_enforce with
      | some b => some (if b then "1" else "0")
      | none => i.zygisksuEnforce
    tmpfs_xattr_supported := match st.tmpfs_xattr_supported with
      | some b => some b
      | none => i.tmpfs_xattr_supported }

/-- The tagged-line command of `getSystemInfo`. -/
def sysInfoCmd : String :=
  "echo \"KERNEL:$(uname -r)\"; echo \"SELINUX:$(getenforce)\""

/-- The state-file read command (the source's literal fallback path, since
the `constants` module is not among the sources). -/
def daemonStateCmd : String :=
  "cat \"/data/adb/meta-hybrid/run/daemon_state.json\""

/-- `RealAPI.getSystemInfo`; `parseState` is the `JSON.parse` platform
primitive (plus field extraction), taken as an oracle. -/
def getSystemInfo (exec : Option ExecFn)
    (parseState : String → Option DaemonState) : SystemInfo :=
  match exec with
  | none => sentinelInfo
  | some run =>
    let rSys := run sysInfoCmd
    let info1 :=
      if rSys.errno = 0 ∧ rSys.stdout ≠ "" then parseTagged rSys.stdout sentinelInfo
      else sentinelInfo
    let rState := run daemonStateCmd
    if rState.errno = 0 ∧ rState.stdout ≠ "" then
      match parseState rState.stdout with
      | some st => applyState st info1
      | none => info1
    else info1

/-- `DeviceInfo` from the source. -/
structure DeviceInfo where
  model : String
  android : String
  kernel : String
  selinux : String
deriving DecidableEq

/-- The four property queries of `getDeviceStatus`. -/
def getpropModelCmd : String := "getprop ro.product.model"

/-- The Android release query. -/
def getpropReleaseCmd : String := "getprop ro.build.version.release"

/-- The SDK level query. -/
def getpropSdkCmd : String := "getprop ro.build.version.sdk"

/-- The kernel query. -/
def unameCmd : String := "uname -r"

/-- `RealAPI.getDeviceStatus`.  Note the source checks `p1.errno`, `p2.errno`
and `p4.errno` but never `p3.errno`: the SDK query's stdout is interpolated
whenever the release query succeeds. -/
def getDeviceStatus (exec : Option ExecFn) : DeviceInfo :=
  match exec with
  | none => { model := "Device", android := "14", kernel := "Unknown",
              selinux := "Enforcing" }
  | some run =>
    let p1 := run getpropModelCmd
    let model := if p1.errno = 0 then trimStr p1.stdout else "Device"
    let p2 := run getpropReleaseCmd
    let p3 := run getpropSdkCmd
    let android :=
      if p2.errno = 0 then
        trimStr p2.stdout ++ " (API " ++ trimStr p3.stdout ++ ")"
      else "14"
    let p4 := run unameCmd
    let kernel := if p4.errno = 0 then trimStr p4.stdout else "Unknown"
    { model := model, android := android, kernel := kernel,
      selinux := "Enforcing" }

/-- Claim C7: in `getSystemInfo` the two sub-queries are isolated — a
non-zero exit of the tagged-line command leaves the state-file fields intact
(kernel and selinux at the sentinel "-", mountBase and activeMounts from the
state file), and a failing or unparseable state-file read leaves the
tagged-line contribution intact. -/
theorem getSystemInfo_isolated :
    (∀ (run : ExecFn) parseState st,
      (run sysInfoCmd).errno ≠ 0 →
      (run daemonStateCmd).errno = 0 →
      (run daemonStateCmd).stdout ≠ "" →
      parseState (run daemonStateCmd).stdout = some st →
      getSystemInfo (some run) parseState = applyState st sentinelInfo ∧
      (getSystemInfo (some run) parseState).kernel = "-" ∧
      (getSystemInfo (some run) parseState).selinux = "-" ∧
      (getSystemInfo (some run) parseState).mountBase =
        (match st.mount_point with
          | some s => if s = "" then "Unknown" else s
          | none => "Unknown") ∧
      (getSystemInfo (some run) parseState).activeMounts
        = st.active_mounts.getD []) ∧
    (∀ (run : ExecFn) parseState,
      (run daemonStateCmd).errno ≠ 0 →
      getSystemInfo (some run) parseState =
        (if (run sysInfoCmd).errno = 0 ∧ (run sysInfoCmd).stdout ≠ "" then
          parseTagged (run sysInfoCmd).stdout sentinelInfo
        else sentinelInfo)) ∧
    (∀ (run : ExecFn) parseState,
      parseState (run daemonStateCmd).stdout = none →
      getSystemInfo (some run) parseState =
        (if (run sysInfoCmd).errno = 0 ∧ (run sysInfoCmd).stdout ≠ "" then
          parseTagged (run sysInfoCmd).stdout sentinelInfo
        else sentinelInfo)) := by
  refine ⟨?_, ?_, ?_⟩
  · intro run parseState st h1 h2 h3 h4
    have he : getSystemInfo (some run) parseState = applyState st sentinelInfo := by
      simp [getSystemInfo, h1, h2, h3, h4]
    refine ⟨he, ?_, ?_, ?_, ?_⟩ <;> rw [he] <;> simp [applyState, sentinelInfo]
  · intro run parseState h
    simp [getSystemInfo, h]
  · intro run parseState h
    by_cases hc : (run daemonStateCmd).errno = 0 ∧ (run daemonStateCmd).stdout ≠ ""
    · simp [getSystemInfo, hc, h]
    · simp [getSystemInfo, hc]

/-- Witness for `getSystemInfo_isolated`: the tagged-line command fails, the
state file parses, and the result mixes sentinel and state-file fields. -/
theorem getSystemInfo_isolated_witness :
    (getSystemInfo (some fun cmd =>
        if cmd = daemonStateCmd then ⟨0, "J", ""⟩ else ⟨1, "", ""⟩)
      (fun _ => some ⟨some "/mnt/base", some ["system"], none, none⟩)).kernel
        = "-" ∧
    (getSystemInfo (some fun cmd =>
        if cmd = daemonStateCmd then ⟨0, "J", ""⟩ else ⟨1, "", ""⟩)
      (fun _ => some ⟨some "/mnt/base", some ["system"], none, none⟩)).mountBase
        = "/mnt/base" ∧
    (getSystemInfo (some fun cmd =>
        if cmd = daemonStateCmd then ⟨0, "J", ""⟩ else ⟨1, "", ""⟩)
      (fun _ => some ⟨some "/mnt/base", some ["system"], none, none⟩)).activeMounts
        = ["system"] := by
  have h := getSystemInfo_isolated.1
    (fun cmd => if cmd = daemonStateCmd then ⟨0, "J", ""⟩ else ⟨1, "", ""⟩)
    (fun _ => some ⟨some "/mnt/base", some ["system"], none, none⟩)
    ⟨some "/mnt/base", some ["system"], none, none⟩
    (by decide) (by decide) (by decide) rfl
  refine ⟨h.2.1, ?_, ?_⟩
  · rw [h.2.2.2.1]; decide
  · rw [h.2.2.2.2]; rfl

/-- Counterexample to claim C8 as stated: with the SDK query failing (exit 1)
and the release query succeeding, the android field is not left at its
hardcoded fallback literal "14" — the failing query's empty stdout is
interpolated instead. -/
theorem getDeviceStatus_sdk_not_fallback :
    (getDeviceStatus (some fun cmd =>
      if cmd = getpropSdkCmd then ⟨1, "", "boom"⟩
      else if cmd = getpropReleaseCmd then ⟨0, "15", ""⟩
      else ⟨0, "ok", ""⟩)).android = "15 (API )" ∧
    ("15 (API )" : String) ≠ "14" := by
  constructor
  · decide
  · decide

/-- Claim C8 (amended): `getDeviceStatus` issues four property queries; the
model, release and kernel queries each fall back independently to the
literals "Device", "14", "Unknown" on non-zero exit, without affecting the
other fields; the SDK query's exit code is never checked — whenever the
release query succeeds, the SDK query's trimmed stdout is interpolated into
the android field regardless of SDK failure; selinux is always the literal
"Enforcing", so the record is always fully populated. -/
theorem getDeviceStatus_spec :
    (∀ (run : ExecFn), (run getpropModelCmd).errno ≠ 0 →
      (getDeviceStatus (some run)).model = "Device") ∧
    (∀ (run : ExecFn), (run getpropModelCmd).errno = 0 →
      (getDeviceStatus (some run)).model = trimStr (run getpropModelCmd).stdout) ∧
    (∀ (run : ExecFn), (run getpropReleaseCmd).errno ≠ 0 →
      (getDeviceStatus (some run)).android = "14") ∧
    (∀ (run : ExecFn), (run getpropReleaseCmd).errno = 0 →
      (getDeviceStatus (some run)).android =
        trimStr (run getpropReleaseCmd).stdout ++ " (API "
          ++ trimStr (run getpropSdkCmd).stdout ++ ")") ∧
    (∀ (run : ExecFn), (run unameCmd).errno ≠ 0 →
      (getDeviceStatus (some run)).kernel = "Unknown") ∧
    (∀ (run : ExecFn), (run unameCmd).errno = 0 →
      (getDeviceStatus (some run)).kernel = trimStr (run unameCmd).stdout) ∧
    (∀ exec, (getDeviceStatus exec).selinux = "Enforcing") ∧
    (getDeviceStatus none = ⟨"Device", "14", "Unknown", "Enforcing"⟩) := by
  refine ⟨?_, ?_, ?_, ?_, ?_, ?_, ?_, rfl⟩ <;>
    first
      | (intro run h; simp [getDeviceStatus, h])
      | (intro exec; cases exec <;> simp [getDeviceStatus])

/-- Witness for `getDeviceStatus_spec`: all queries failing yields the
all-fallback record. -/
theorem getDeviceStatus_spec_witness :
    (getDeviceStatus (some fun _ => ⟨1, "", ""⟩)).model = "Device" ∧
    (getDeviceStatus (some fun _ => ⟨1, "", ""⟩)).android = "14" ∧
    (getDeviceStatus (some fun _ => ⟨1, "", ""⟩)).kernel = "Unknown" :=
  ⟨getDeviceStatus_spec.1 (fun _ => ⟨1, "", ""⟩) (by decide),
    getDeviceStatus_spec.2.2.1 (fun _ => ⟨1, "", ""⟩) (by decide),
    getDeviceStatus_spec.2.2.2.2.1 (fun _ => ⟨1, "", ""⟩) (by decide)⟩

/-! ## Accent color resolver (`fetchSystemColor`)

The four inline regular expressions of the source are embedded as
deterministic scanners over `List Char`.  Each one is faithful to the
JavaScript semantics of its pattern: leftmost match, greedy quantifiers
(none of these patterns ever needs backtracking: every optional element is
followed by an element that cannot match the same character), and the `i`
flag rendered by case-folding both sides. -/

/-- The regex character class `[0-9a-fA-F]`. -/
def isHexDigitChar (c : Char) : Bool :=
  ('0' ≤ c && c ≤ '9') || ('a' ≤ c && c ≤ 'f') || ('A' ≤ c && c ≤ 'F')

/-- A single or double quote, the class of the optional quote elements. -/
def isQuoteChar (c : Char) : Bool := c == '"' || c == '\''

/-- Consume one optional leading quote. -/
def skipQuote : List Char → List Char
  | [] => []
  | c :: rest => if isQuoteChar c then rest else c :: rest

/-- Case-insensitive literal match returning the remainder. -/
def matchLitCI : List Char → List Char → Option (List Char)
  | [], cs => some cs
  | _ :: _, [] => none
  | l :: ls, c :: cs => if c.toLower == l.toLower then matchLitCI ls cs else none

/-- One attempt of the step-1 pattern at a fixed position:
quote? (system-palette-key | source-color-key) quote? ws* ':' ws* quote? '#'?
then a greedy 6-to-8 hex-digit capture. -/
def tryPaletteAt (cs : List Char) : Option (List Char) :=
  let cs1 := skipQuote cs
  match match matchLitCI "android.theme.customization.system_palette".data cs1 with
        | some r => some r
        | none => matchLitCI "source_color".data cs1 with
  | none => none
  | some cs2 =>
    let cs3 := skipQuote cs2
    match cs3.dropWhile Char.isWhitespace with
    | ':' :: cs5 =>
      let cs6 := cs5.dropWhile Char.isWhitespace
      let cs7 := skipQuote cs6
      let cs8 := match cs7 with
        | '#' :: t => t
        | l => l
      let run := cs8.takeWhile isHexDigitChar
      if 6 ≤ run.length then some (run.take 8) else none
    | _ => none

/-- Leftmost application of the step-1 pattern. -/
def scanPalette : List Char → Option (List Char)
  | [] => none
  | c :: cs =>
    match tryPaletteAt (c :: cs) with
    | some r => some r
    | none => scanPalette cs

/-- Capture group 1 of the step-1 regex on the settings output. -/
def matchPalette (s : String) : Option String :=
  (scanPalette s.data).map (fun l => ⟨l⟩)

/-- One attempt of the step-2 pattern `mMainColor=0x` followed by exactly 8
hex digits, at a fixed position. -/
def tryMainAt (cs : List Char) : Option (List Char) :=
  match matchLitCI "mmaincolor=0x".data cs with
  | none => none
  | some rest =>
    let h := rest.take 8
    if h.length = 8 && h.all isHexDigitChar then some h else none

/-- Leftmost application of the step-2 pattern. -/
def scanMain : List Char → Option (List Char)
  | [] => none
  | c :: cs =>
    match tryMainAt (c :: cs) with
    | some r => some r
    | none => scanMain cs

/-- Capture group 1 of the step-2 regex on the wallpaper dump output. -/
def matchMain (s : String) : Option String :=
  (scanMain s.data).map (fun l => ⟨l⟩)

/-- The alpha-dropping normalization applied by steps 1 and 2: an 8-digit
token loses its first two characters. -/
def normalizeHex (m : String) : String :=
  if m.length = 8 then dropStr m 2 else m

/-- Substring search (JS `String.prototype.includes`). -/
def listContains (needle : List Char) : List Char → Bool
  | [] => needle.isEmpty
  | c :: rest => isPrefixOfL needle (c :: rest) || listContains needle rest

/-- JS `s.includes(sub)`. -/
def strIncludes (s sub : String) : Bool := listContains sub.data s.data

/-- `OVERLAY_COLOR_MAP` from the source, in declaration order. -/
def OVERLAY_COLOR_MAP : List (String × String) :=
  [("com.android.theme.color.cinnamon", "#9F6047"),
   ("com.android.theme.color.black", "#3C3F41"),
   ("com.android.theme.color.green", "#3DDC84"),
   ("com.android.theme.color.ocean", "#009688"),
   ("com.android.theme.color.space", "#475975"),
   ("com.android.theme.color.orchid", "#DA70D6"),
   ("com.android.theme.color.purple", "#9C27B0"),
   ("org.lineageos.overlay.accent.blue", "#4285F4"),
   ("org.lineageos.overlay.accent.cyan", "#00BCD4"),
   ("org.lineageos.overlay.accent.green", "#4CAF50"),
   ("org.lineageos.overlay.accent.orange", "#FF9800"),
   ("org.lineageos.overlay.accent.pink", "#E91E63"),
   ("org.lineageos.overlay.accent.purple", "#9C27B0"),
   ("org.lineageos.overlay.accent.red", "#F44336"),
   ("org.lineageos.overlay.accent.yellow", "#FFEB3B")]

/-- Step-3 treatment of one overlay-list line: on an enabled line (one
containing "[x]") the first known package contained in the line yields its
literal color. -/
def lineColor (line : String) : Option String :=
  if strIncludes line "[x]" then
    (OVERLAY_COLOR_MAP.find? (fun p => strIncludes line p.1)).map Prod.snd
  else none

/-- Step 3 on the whole overlay-list output: first line that yields a
color. -/
def overlayScanStr (out : String) : Option String :=
  (splitLinesStr out).findSome? lineColor

/-- The step-4 full-string test `^#?[0-9a-fA-F]{6,8}$`. -/
def isColorTokenChars (l : List Char) : Bool :=
  let body := match l with
    | '#' :: rest => rest
    | rest => rest
  decide (6 ≤ body.length) && decide (body.length ≤ 8) && body.all isHexDigitChar

/-- Whether a string starts with the character '#'. -/
def startsWithHash (s : String) : Bool := s.data.head? == some '#'

/-- Step 1 of the chain: settings output, palette/source-color capture,
normalized and '#'-prefixed. -/
def step1Res (o : String) : Option String :=
  if o = "" then none
  else (matchPalette o).map (fun m => "#" ++ normalizeHex m)

/-- Step 2 of the chain: wallpaper dump, `mMainColor` capture, normalized
and '#'-prefixed. -/
def step2Res (o : String) : Option String :=
  if o = "" then none
  else (matchMain o).map (fun m => "#" ++ normalizeHex m)

/-- Step 3 of the chain: enabled-overlay scan against the static table. -/
def step3Res (o : String) : Option String :=
  if o = "" then none else overlayScanStr o

/-- Step 4 of the chain: trimmed theme-color property, returned verbatim
(with '#' prepended when missing) — note: with no alpha dropping. -/
def step4Res (o : String) : Option String :=
  if o = "" then none
  else
    let t := trimStr o
    if isColorTokenChars t.data then
      some (if startsWithHash t then t else "#" ++ t)
    else none

/-- The four-step fallback chain of `fetchSystemColor`, over the four
source outputs: first step that yields a value wins. -/
def colorChain (o1 o2 o3 o4 : String) : Option String :=
  match step1Res o1 with
  | some c => some c
  | none =>
    match step2Res o2 with
    | some c => some c
    | none =>
      match step3Res o3 with
      | some c => some c
      | none => step4Res o4

/-- The theming settings query (step 1). -/
def settingsCmd : String :=
  "settings get secure theme_customization_overlay_packages"

/-- The wallpaper diagnostic dump query (step 2). -/
def wallpaperCmd : String :=
  "dumpsys wallpaper | grep -E 'mMainColor|mPrimaryColors|mConnection'"

/-- The enabled-overlay list query (step 3). -/
def overlayListCmd : String := "cmd overlay list --user current"

/-- The theme-color property query (step 4). -/
def themePropCmd : String := "getprop persist.sys.theme.color"

/-- `RealAPI.fetchSystemColor`: absent capability yields `null`; otherwise
the chain over the four source outputs (the source destructures only
`stdout` from each call, ignoring exit codes). -/
def fetchSystemColor (exec : Option ExecFn) : Option String :=
  match exec with
  | none => none
  | some run =>
    colorChain (run settingsCmd).stdout (run wallpaperCmd).stdout
      (run overlayListCmd).stdout (run themePropCmd).stdout

/-- Every overlay-table entry, placed alone on an enabled line, resolves to
its own color (no table entry is a substring of another). -/
theorem overlay_first_match :
    OVERLAY_COLOR_MAP.all (fun p => step3Res ("[x] " ++ p.1) == some p.2) = true := by
  decide

/-- Claim C5: `fetchSystemColor` evaluates its four sources in the fixed
order and returns at the first source that yields a match, independently of
all later sources; with sources 1 and 2 yielding no match and the overlay
list consisting of a line marked enabled that contains a known package, the
result is that package's literal color from the static table, independently
of source 4; with all four sources yielding nothing, or the capability
absent, the result is null. -/
theorem fetchSystemColor_precedence_spec :
    (fetchSystemColor none = none) ∧
    (∀ run : ExecFn, fetchSystemColor (some run) =
      colorChain (run settingsCmd).stdout (run wallpaperCmd).stdout
        (run overlayListCmd).stdout (run themePropCmd).stdout) ∧
    (∀ o1 o2 o3 o4 c, step1Res o1 = some c → colorChain o1 o2 o3 o4 = some c) ∧
    (∀ o1 o2 o3 o4 c, step1Res o1 = none → step2Res o2 = some c →
      colorChain o1 o2 o3 o4 = some c) ∧
    (∀ o1 o2 o4 pkg col, step1Res o1 = none → step2Res o2 = none →
      (pkg, col) ∈ OVERLAY_COLOR_MAP →
      colorChain o1 o2 ("[x] " ++ pkg) o4 = some col) ∧
    (∀ o1 o2 o3 o4, step1Res o1 = none → step2Res o2 = none →
      step3Res o3 = none → step4Res o4 = none →
      colorChain o1 o2 o3 o4 = none) ∧
    (colorChain "" "" "" "" = none) := by
  refine ⟨rfl, fun _ => rfl, ?_, ?_, ?_, ?_, by decide⟩
  · intro o1 o2 o3 o4 c h
    simp [colorChain, h]
  · intro o1 o2 o3 o4 c h1 h2
    simp [colorChain, h1, h2]
  · intro o1 o2 o4 pkg col h1 h2 hmem
    have hall := overlay_first_match
    rw [List.all_eq_true] at hall
    have h3 := hall (pkg, col) hmem
    have h3e : step3Res ("[x] " ++ pkg) = some col := by
      simpa using h3
    simp [colorChain, h1, h2, h3e]
  · intro o1 o2 o3 o4 h1 h2 h3 h4
    simp [colorChain, h1, h2, h3, h4]

/-- Witness for `fetchSystemColor_precedence_spec`: sources 1 and 2 empty,
an enabled LineageOS blue accent overlay in the list. -/
theorem fetchSystemColor_precedence_spec_witness :
    colorChain "" "" ("[x] " ++ "org.lineageos.overlay.accent.blue") ""
      = some "#4285F4" :=
  fetchSystemColor_precedence_spec.2.2.2.2.1 "" "" ""
    "org.lineageos.overlay.accent.blue" "#4285F4" rfl rfl (by decide)

/-- Counterexample to claim C6 as stated: at step 4 an 8-hex-digit token is
returned whole — the leading alpha byte is not dropped — so a non-null
result of the chain need not be a 6-hex-digit value. -/
theorem colorChain_alpha_counterexample :
    colorChain "" "" "" "12345678" = some "#12345678" ∧
    ("#12345678" : String) ≠ "#" ++ dropStr "12345678" 2 := by
  constructor
  · decide
  · decide

theorem hash_append (s : String) : startsWithHash ("#" ++ s) = true := by
  cases s with
  | mk d => rfl

theorem tryMainAt_len (cs r : List Char) (h : tryMainAt cs = some r) :
    r.length = 8 := by
  simp only [tryMainAt] at h
  cases hm : matchLitCI "mmaincolor=0x".data cs with
  | none => simp [hm] at h
  | some rest =>
    simp only [hm] at h
    split_ifs at h with hc
    simp only [Option.some.injEq] at h
    subst h
    simp only [Bool.and_eq_true, decide_eq_true_eq] at hc
    exact hc.1

theorem scanMain_len (l : List Char) : ∀ r, scanMain l = some r → r.length = 8 := by
  induction l with
  | nil => intro r hr; simp [scanMain] at hr
  | cons c cs ih =>
    intro r hr
    simp only [scanMain] at hr
    cases ht : tryMainAt (c :: cs) with
    | some q =>
      simp only [ht, Option.some.injEq] at hr
      subst hr
      exact tryMainAt_len _ _ ht
    | none =>
      simp only [ht] at hr
      exact ih r hr

theorem matchMain_len (s m : String) (h : matchMain s = some m) : m.length = 8 := by
  simp only [matchMain] at h
  cases hs : scanMain s.data with
  | none => simp [hs] at h
  | some l =>
    rw [hs] at h
    simp only [Option.map_some', Option.some.injEq] at h
    subst h
    exact scanMain_len _ _ hs

theorem lineColor_mem (line c : String) (h : lineColor line = some c) :
    c ∈ OVERLAY_COLOR_MAP.map Prod.snd := by
  simp only [lineColor] at h
  split_ifs at h with hx
  cases hf : OVERLAY_COLOR_MAP.find? (fun p => strIncludes line p.1) with
  | none => simp [hf] at h
  | some q =>
    rw [hf] at h
    simp only [Option.map_some', Option.some.injEq] at h
    subst h
    exact List.mem_map_of_mem Prod.snd (List.mem_of_find?_eq_some hf)

theorem findSome?_lineColor_mem (lines : List String) :
    ∀ c, lines.findSome? lineColor = some c →
      c ∈ OVERLAY_COLOR_MAP.map Prod.snd := by
  induction lines with
  | nil => intro c h; simp at h
  | cons a l ih =>
    intro c h
    rw [List.findSome?_cons] at h
    cases hl : lineColor a with
    | some d =>
      simp only [hl, Option.some.injEq] at h
      subst h
      exact lineColor_mem a _ hl
    | none =>
      simp only [hl] at h
      exact ih c h

theorem step1_hash (o c : String) (h : step1Res o = some c) :
    startsWithHash c = true := by
  simp only [step1Res] at h
  split_ifs at h with ho
  cases hm : matchPalette o with
  | none => simp [hm] at h
  | some m =>
    rw [hm] at h
    simp only [Option.map_some', Option.some.injEq] at h
    subst h
    exact hash_append _

theorem step2_hash (o c : String) (h : step2Res o = some c) :
    startsWithHash c = true := by
  simp only [step2Res] at h
  split_ifs at h with ho
  cases hm : matchMain o with
  | none => simp [hm] at h
  | some m =>
    rw [hm] at h
    simp only [Option.map_some', Option.some.injEq] at h
    subst h
    exact hash_append _

theorem step3_hash (o c : String) (h : step3Res o = some c) :
    startsWithHash c = true := by
  simp only [step3Res] at h
  split_ifs at h with ho
  have hmem := findSome?_lineColor_mem (splitLinesStr o) c h
  have hall : OVERLAY_COLOR_MAP.all (fun p => startsWithHash p.2) = true := by
    decide
  rw [List.all_eq_true] at hall
  simp only [List.mem_map] at hmem
  obtain ⟨p, hp, rfl⟩ := hmem
  exact hall p hp

theorem step4_hash (o c : String) (h : step4Res o = some c) :
    startsWithHash c = true := by
  simp only [step4Res] at h
  split_ifs at h with ho htok hh
  · simp only [Option.some.injEq] at h
    subst h
    exact hh
  · simp only [Option.some.injEq] at h
    subst h
    exact hash_append _

/-- Claim C6 (amended): steps 1 and 2 of the accent-color chain drop the
leading alpha byte of an 8-hex-digit token (step 2's token always has 8
digits); step 3 returns 6-hex-digit literal table colors; but step 4 returns
its trimmed 6-to-8-hex-digit token verbatim, only prepending a '#' when
missing — it performs no alpha dropping, so a non-null chain result is
always '#'-prefixed but not always 6 hex digits. -/
theorem color_normalization_spec :
    (∀ o m, o ≠ "" → matchPalette o = some m → m.length = 8 →
      step1Res o = some ("#" ++ dropStr m 2)) ∧
    (∀ o m, o ≠ "" → matchMain o = some m →
      m.length = 8 ∧ step2Res o = some ("#" ++ dropStr m 2)) ∧
    (∀ p ∈ OVERLAY_COLOR_MAP, p.2.length = 7 ∧ startsWithHash p.2 = true) ∧
    (∀ o c, step4Res o = some c →
      c = (if startsWithHash (trimStr o) then trimStr o else "#" ++ trimStr o)) ∧
    (step4Res "12345678" = some "#12345678") ∧
    (∀ o1 o2 o3 o4 c, colorChain o1 o2 o3 o4 = some c →
      startsWithHash c = true) := by
  refine ⟨?_, ?_, ?_, ?_, by decide, ?_⟩
  · intro o m ho hm hlen
    simp [step1Res, ho, hm, normalizeHex, hlen]
  · intro o m ho hm
    have hlen := matchMain_len o m hm
    exact ⟨hlen, by simp [step2Res, ho, hm, normalizeHex, hlen]⟩
  · intro p hp
    fin_cases hp <;> exact ⟨by decide, by decide⟩
  · intro o c h
    simp only [step4Res] at h
    split_ifs at h with ho htok hh
    · simp only [Option.some.injEq] at h
      subst h
      rw [if_pos hh]
    · simp only [Option.some.injEq] at h
      subst h
      rw [if_neg hh]
  · intro o1 o2 o3 o4 c h
    simp only [colorChain] at h
    cases h1 : step1Res o1 with
    | some d =>
      simp only [h1, Option.some.injEq] at h
      subst h
      exact step1_hash _ _ h1
    | none =>
      simp only [h1] at h
      cases h2 : step2Res o2 with
      | some d =>
        simp only [h2, Option.some.injEq] at h
        subst h
        exact step2_hash _ _ h2
      | none =>
        simp only [h2] at h
        cases h3 : step3Res o3 with
        | some d =>
          simp only [h3, Option.some.injEq] at h
          subst h
          exact step3_hash _ _ h3
        | none =>
          simp only [h3] at h
          exact step4_hash _ _ h

/-- Witness for `color_normalization_spec`: a step-1 source with an
8-hex-digit capture is normalized by dropping its leading alpha byte. -/
theorem color_normalization_spec_witness :
    step1Res "source_color:aabbcc11" = some ("#" ++ dropStr "aabbcc11" 2) :=
  color_normalization_spec.1 "source_color:aabbcc11" "aabbcc11" (by decide)
    (by decide) (by decide)

/-! ## API surface (`AppAPI`, `MockAPI`) — call shape as name and arity -/

/-- The operations of the `AppAPI` interface (the facade's API surface), in
declaration order, as (name, number of parameters). -/
def appAPISurface : List (String × Nat) :=
  [("loadConfig", 0), ("saveConfig", 1), ("resetConfig", 0), ("scanModules", 1),
   ("saveModules", 1), ("saveModuleRules", 2), ("getStorageUsage", 0),
   ("getSystemInfo", 0), ("getDeviceStatus", 0), ("getVersion", 0),
   ("openLink", 1), ("fetchSystemColor", 0), ("reboot", 0), ("readLogs", 0)]

/-- The operations of the `MockAPI` object, in declaration order, as
(name, number of parameters).  The binding casts this object through
`unknown` to `AppAPI`. -/
def mockAPISurface : List (String × Nat) :=
  [("loadConfig", 0), ("saveConfig", 1), ("resetConfig", 0), ("scanModules", 1),
   ("saveModuleRules", 2), ("getDeviceStatus", 0), ("getVersion", 0),
   ("getStorageUsage", 0), ("getSystemInfo", 0), ("rmmodHymofs", 0)]

/-- Counterexample to claim C9 as stated: the facade's surface includes
`fetchSystemColor` (and also `saveModules`, `openLink`, `reboot`,
`readLogs`), but the mock exposes no operation of that name at all. -/
theorem mockAPI_missing_counterexample :
    ("fetchSystemColor", 0) ∈ appAPISurface ∧
    "fetchSystemColor" ∉ mockAPISurface.map Prod.fst := by
  decide

/-- Claim C9 (amended): the mock exposes an operation of the same name and
arity for nine of the fourteen facade operations — config load, save and
reset, module scan, module-rule save, storage usage, system info, device
status and version — but exposes none of `saveModules`, `openLink`,
`fetchSystemColor`, `reboot`, `readLogs`, and adds `rmmodHymofs`, which the
facade does not declare; the binding therefore needs an unchecked cast, and
a caller of the five missing operations observes a difference. -/
theorem mockAPI_surface_spec :
    (∀ p ∈ ([("loadConfig", 0), ("saveConfig", 1), ("resetConfig", 0),
        ("scanModules", 1), ("saveModuleRules", 2), ("getStorageUsage", 0),
        ("getSystemInfo", 0), ("getDeviceStatus", 0), ("getVersion", 0)] :
        List (String × Nat)),
      p ∈ appAPISurface ∧ p ∈ mockAPISurface) ∧
    (∀ n ∈ (["saveModules", "openLink", "fetchSystemColor", "reboot",
        "readLogs"] : List String),
      n ∈ appAPISurface.map Prod.fst ∧ n ∉ mockAPISurface.map Prod.fst) ∧
    ("rmmodHymofs" ∈ mockAPISurface.map Prod.fst ∧
      "rmmodHymofs" ∉ appAPISurface.map Prod.fst) := by
  refine ⟨?_, ?_, by decide⟩ <;>
    (intro p hp
     fin_cases hp <;> exact ⟨by decide, by decide⟩)

/-- Witness for `mockAPI_surface_spec` at a shared operation. -/
theorem mockAPI_surface_spec_witness :
    ("loadConfig", 0) ∈ appAPISurface ∧ ("loadConfig", 0) ∈ mockAPISurface :=
  mockAPI_surface_spec.1 ("loadConfig", 0) (by decide)
